import Mathlib

/-!
A shallow embedding of `src/langchain/src/callbacks/manager.ts`: the
callback `CallbackManager` (dispatcher), its per-category run managers
(`CallbackManagerForLLMRun`, `CallbackManagerForChainRun`,
`CallbackManagerForToolRun`), handler registration, `copy`, `getChild`
and the static `configure` procedure.

Modelling choices, each forced by the JavaScript semantics of the source:

* Handler objects are compared by reference (`!==` in `removeHandler`),
  so a handler carries an explicit object identity `hid : Nat` that is
  not a field of the source class.
* The dispatcher's `handlers` / `inheritableHandlers` fields are mutable
  JavaScript arrays, and a run manager receives the array *references*
  (not copies) at construction.  We therefore model a heap of arrays: a
  `Heap` maps array references (`Nat`) to their contents, `allocArr`
  allocates a fresh array, `pushArr` mutates one in place (`push`), and
  a reassignment such as `this.handlers = this.handlers.filter(...)`
  allocates a fresh array and rebinds the reference held by the object.
* A handler callback is optional (`handler.handleX?.(...)`) and may
  throw.  A handler's behaviour is abstracted by two predicates:
  `hasMethod ev` (the optional method is present) and `throwsOn ev`
  (invoking it throws/rejects).  Invoking an absent method is a no-op.
* `Promise.all` over the per-handler tasks is `promiseAll`: it rejects
  (propagates `Except.error`) as soon as any task rejects, and resolves
  with the list of task outcomes otherwise.  Each per-handler task wraps
  the invocation in `try/catch`, turning a thrown error into a logged
  `Outcome.caught` (the `console.error` call in the source).
-/

/-- The lifecycle callback names of the source (`handleLLMStart`, ...). -/
inductive EventName where
  | llmStart | llmNewToken | llmEnd | llmError
  | chainStart | chainEnd | chainError
  | agentAction | agentEnd
  | toolStart | toolEnd | toolError
  | text
deriving DecidableEq

/-- The source method name of an event, used in the `console.error` log line. -/
def EventName.methodName : EventName → String
  | .llmStart => "handleLLMStart"
  | .llmNewToken => "handleLLMNewToken"
  | .llmEnd => "handleLLMEnd"
  | .llmError => "handleLLMError"
  | .chainStart => "handleChainStart"
  | .chainEnd => "handleChainEnd"
  | .chainError => "handleChainError"
  | .agentAction => "handleAgentAction"
  | .agentEnd => "handleAgentEnd"
  | .toolStart => "handleToolStart"
  | .toolEnd => "handleToolEnd"
  | .toolError => "handleToolError"
  | .text => "handleText"

/-- A registered handler (`BaseCallbackHandler` of `callbacks/base.ts`).
`hid` is the JavaScript object identity (reference), not a source field;
`name` is the stable identity name; the three `ignore*` flags are the
per-category suppression flags read by the dispatch code in
`manager.ts`; `hasMethod`/`throwsOn` abstract the behaviour of the
handler's optional callback methods. -/
structure BaseCallbackHandler where
  hid : Nat
  name : String
  ignoreLLM : Bool
  ignoreChain : Bool
  ignoreAgent : Bool
  hasMethod : EventName → Bool
  throwsOn : EventName → Bool

/-- Modelled from the spec: `BaseCallbackHandler.copy()` lives in
`callbacks/base.ts`, which is not under `src/`; the spec (§4.1) describes
it as "a duplication operation producing an independent copy with the
same configuration".  The copy keeps every configuration field and gets
a fresh object identity, supplied by the caller. -/
def BaseCallbackHandler.copy (h : BaseCallbackHandler) (freshId : Nat) :
    BaseCallbackHandler :=
  { h with hid := freshId }

/-- Outcome of one handler's task inside a fan-out: the callback ran and
returned (`invoked`), it threw and the error was caught and logged
(`caught`, carrying the `console.error` message), or nothing was invoked
(flag-suppressed or method absent). -/
inductive Outcome where
  | invoked (hid : Nat)
  | caught (hid : Nat) (msg : String)
  | noop
deriving DecidableEq

/-- The `console.error` message built in every `catch` block of the source. -/
def logMsg (h : BaseCallbackHandler) (ev : EventName) (err : String) : String :=
  "Error in handler " ++ h.name ++ ", " ++ ev.methodName ++ ": " ++ err

/-- The raw optional-method call `handler.handleX?.(...)`: absent method
is a no-op, a present method either returns or throws. -/
def invokeMethod (h : BaseCallbackHandler) (ev : EventName) :
    Except String (Option Nat) :=
  if h.hasMethod ev then
    if h.throwsOn ev then Except.error "handler threw"
    else Except.ok (some h.hid)
  else Except.ok none

/-- The `try { await handler.handleX?.(...) } catch (err) { console.error(...) }`
body shared by every dispatch site of the source. -/
def tryInvoke (ev : EventName) (h : BaseCallbackHandler) : Except String Outcome :=
  match invokeMethod h ev with
  | Except.ok (some i) => Except.ok (Outcome.invoked i)
  | Except.ok none => Except.ok Outcome.noop
  | Except.error e => Except.ok (Outcome.caught h.hid (logMsg h ev e))

/-- `Promise.all`: rejects as soon as one task rejects, otherwise
resolves with all the outcomes. -/
def promiseAll {α : Type} : List (Except String α) → Except String (List α)
  | [] => Except.ok []
  | Except.error e :: _ => Except.error e
  | Except.ok a :: ts =>
    match promiseAll ts with
    | Except.error e => Except.error e
    | Except.ok as => Except.ok (a :: as)

/-- The fan-out of one event over a handler list, with a per-handler
suppression check (`if (!handler.ignoreX) { try ... catch ... }`). -/
def fanOut (hs : List BaseCallbackHandler) (ignore : BaseCallbackHandler → Bool)
    (ev : EventName) : Except String (List Outcome) :=
  promiseAll (hs.map fun h => if ignore h then Except.ok Outcome.noop else tryInvoke ev h)

/-- The fan-out of `handleText`, which has no suppression check in the source. -/
def fanOutAll (hs : List BaseCallbackHandler) (ev : EventName) :
    Except String (List Outcome) :=
  promiseAll (hs.map fun h => tryInvoke ev h)

/-- Pure description of one handler's task outcome; `fanOut` always
resolves with the map of this function (`fanOut_eq_ok`). -/
def taskOutcome (ignore : BaseCallbackHandler → Bool) (ev : EventName)
    (h : BaseCallbackHandler) : Outcome :=
  if ignore h then Outcome.noop
  else if h.hasMethod ev then
    if h.throwsOn ev then Outcome.caught h.hid (logMsg h ev "handler threw")
    else Outcome.invoked h.hid
  else Outcome.noop

/-- The handler identities that actually received the event in a fan-out:
their callback was entered (it either returned or threw). -/
def receivedIds : List Outcome → List Nat
  | [] => []
  | Outcome.invoked i :: os => i :: receivedIds os
  | Outcome.caught i _ :: os => i :: receivedIds os
  | Outcome.noop :: os => receivedIds os

/-! ## The heap of JavaScript arrays

A `Heap` maps array references to their current contents.  `size` is the
number of allocated references (allocation hands out `size` and bumps
it), `nextId` is the supply of fresh object identities for handlers
created during a call (`handler.copy()`, `new ConsoleCallbackHandler()`,
the tracer from `getTracingCallbackHandler()`). -/
structure Heap where
  arrays : Nat → List BaseCallbackHandler
  size : Nat
  nextId : Nat

def Heap.empty : Heap := ⟨fun _ => [], 0, 0⟩

/-- Read the array behind a reference. -/
def getArr (σ : Heap) (r : Nat) : List BaseCallbackHandler := σ.arrays r

/-- Overwrite the array behind a reference. -/
def setArr (σ : Heap) (r : Nat) (a : List BaseCallbackHandler) : Heap :=
  { σ with arrays := fun i => if i = r then a else σ.arrays i }

/-- `array.push(h)`: in-place mutation of the array behind `r`. -/
def pushArr (σ : Heap) (r : Nat) (h : BaseCallbackHandler) : Heap :=
  setArr σ r (getArr σ r ++ [h])

/-- `[]`-literal / `filter` result: allocate a fresh array. -/
def allocArr (σ : Heap) (a : List BaseCallbackHandler) : Heap × Nat :=
  (⟨fun i => if i = σ.size then a else σ.arrays i, σ.size + 1, σ.nextId⟩, σ.size)

/-- Draw a fresh object identity (a `new` expression for a handler). -/
def freshId (σ : Heap) : Heap × Nat :=
  ({ σ with nextId := σ.nextId + 1 }, σ.nextId)

/-! ## `CallbackManager` (the Dispatcher) and the run managers -/
/-- The mutable dispatcher: it holds *references* to its two handler
arrays (the source fields `handlers` and `inheritableHandlers`) plus the
optional parent run id. -/
structure CallbackManager where
  handlersRef : Nat
  inheritableRef : Nat
  parentRunId : Option String

/-- `new CallbackManager(parentRunId)`: `this.handlers = []` and
`this.inheritableHandlers = []` allocate two fresh arrays. -/
def CallbackManager.new (σ : Heap) (parentRunId : Option String) :
    Heap × CallbackManager :=
  let p1 := allocArr σ []
  let p2 := allocArr p1.1 []
  (p2.1, ⟨p1.2, p2.2, parentRunId⟩)

/-- `addHandler(handler, inherit = true)`: pushes onto `this.handlers`
and, if `inherit`, onto `this.inheritableHandlers`.  Mutates the arrays
in place; the manager's fields do not change. -/
def CallbackManager.addHandler (σ : Heap) (m : CallbackManager)
    (handler : BaseCallbackHandler) (inherit : Bool) : Heap :=
  let σ1 := pushArr σ m.handlersRef handler
  if inherit then pushArr σ1 m.inheritableRef handler else σ1

/-- `removeHandler(handler)`: `this.handlers = this.handlers.filter(h => h !== handler)`
and the same for `inheritableHandlers` — each `filter` allocates a fresh
array and the field is rebound to it.  `!==` is reference inequality,
i.e. comparison of the object identities `hid`. -/
def CallbackManager.removeHandler (σ : Heap) (m : CallbackManager)
    (handler : BaseCallbackHandler) : Heap × CallbackManager :=
  let p1 := allocArr σ ((getArr σ m.handlersRef).filter
    (fun h => h.hid != handler.hid))
  let p2 := allocArr p1.1 ((getArr p1.1 m.inheritableRef).filter
    (fun h => h.hid != handler.hid))
  (p2.1, { m with handlersRef := p1.2, inheritableRef := p2.2 })

/-- `setHandlers(handlers, inherit = true)`: rebinds both fields to
fresh empty arrays, then `addHandler(h, inherit)` for each element. -/
def CallbackManager.setHandlers (σ : Heap) (m : CallbackManager)
    (handlers : List BaseCallbackHandler) (inherit : Bool) :
    Heap × CallbackManager :=
  let p1 := allocArr σ []
  let p2 := allocArr p1.1 []
  let m' : CallbackManager := { m with handlersRef := p1.2, inheritableRef := p2.2 }
  (handlers.foldl (fun σ h => CallbackManager.addHandler σ m' h inherit) p2.1, m')

/-- A run manager (`BaseRunManager`): the run id, the *references* to the
handler arrays handed over by the dispatcher at construction (not
copies), and the parent run id. -/
structure BaseRunManager where
  runId : String
  handlersRef : Nat
  inheritableRef : Nat
  parentRunId : Option String

/-- `BaseRunManager.handleText`: fans out to `this.handlers` with no
suppression-flag check. -/
def BaseRunManager.handleText (rm : BaseRunManager) (σ : Heap) :
    Except String (List Outcome) :=
  fanOutAll (getArr σ rm.handlersRef) EventName.text

/-! Per-category run-manager methods.  Each is the same fan-out over the
run's handler array with the category's suppression flag. -/
def CallbackManagerForLLMRun.handleLLMNewToken (rm : BaseRunManager) (σ : Heap) :
    Except String (List Outcome) :=
  fanOut (getArr σ rm.handlersRef) (fun h => h.ignoreLLM) EventName.llmNewToken

def CallbackManagerForLLMRun.handleLLMError (rm : BaseRunManager) (σ : Heap) :
    Except String (List Outcome) :=
  fanOut (getArr σ rm.handlersRef) (fun h => h.ignoreLLM) EventName.llmError

def CallbackManagerForLLMRun.handleLLMEnd (rm : BaseRunManager) (σ : Heap) :
    Except String (List Outcome) :=
  fanOut (getArr σ rm.handlersRef) (fun h => h.ignoreLLM) EventName.llmEnd

def CallbackManagerForChainRun.handleChainError (rm : BaseRunManager) (σ : Heap) :
    Except String (List Outcome) :=
  fanOut (getArr σ rm.handlersRef) (fun h => h.ignoreChain) EventName.chainError

def CallbackManagerForChainRun.handleChainEnd (rm : BaseRunManager) (σ : Heap) :
    Except String (List Outcome) :=
  fanOut (getArr σ rm.handlersRef) (fun h => h.ignoreChain) EventName.chainEnd

def CallbackManagerForChainRun.handleAgentAction (rm : BaseRunManager) (σ : Heap) :
    Except String (List Outcome) :=
  fanOut (getArr σ rm.handlersRef) (fun h => h.ignoreAgent) EventName.agentAction

def CallbackManagerForChainRun.handleAgentEnd (rm : BaseRunManager) (σ : Heap) :
    Except String (List Outcome) :=
  fanOut (getArr σ rm.handlersRef) (fun h => h.ignoreAgent) EventName.agentEnd

def CallbackManagerForToolRun.handleToolError (rm : BaseRunManager) (σ : Heap) :
    Except String (List Outcome) :=
  fanOut (getArr σ rm.handlersRef) (fun h => h.ignoreAgent) EventName.toolError

def CallbackManagerForToolRun.handleToolEnd (rm : BaseRunManager) (σ : Heap) :
    Except String (List Outcome) :=
  fanOut (getArr σ rm.handlersRef) (fun h => h.ignoreAgent) EventName.toolEnd

/-- `CallbackManagerForChainRun.getChild()`: a brand-new
`CallbackManager` with this run's id as parent, seeded via
`setHandlers(this.inheritableHandlers)` (default `inherit = true`). -/
def CallbackManagerForChainRun.getChild (σ : Heap) (rm : BaseRunManager) :
    Heap × CallbackManager :=
  let p := CallbackManager.new σ (some rm.runId)
  CallbackManager.setHandlers p.1 p.2 (getArr p.1 rm.inheritableRef) true

/-- `CallbackManagerForToolRun.getChild()`: identical to the chain-run one. -/
def CallbackManagerForToolRun.getChild (σ : Heap) (rm : BaseRunManager) :
    Heap × CallbackManager :=
  let p := CallbackManager.new σ (some rm.runId)
  CallbackManager.setHandlers p.1 p.2 (getArr p.1 rm.inheritableRef) true

/-- `handleLLMStart`: fan-out of the start event over the current
handlers, then a `CallbackManagerForLLMRun` built from `runId`,
`this.handlers`, `this.inheritableHandlers` (array references, not
copies) and `this._parentRunId`.  The heap is unchanged. -/
def CallbackManager.handleLLMStart (σ : Heap) (m : CallbackManager)
    (runId : String) : Except String (List Outcome) × BaseRunManager :=
  (fanOut (getArr σ m.handlersRef) (fun h => h.ignoreLLM) EventName.llmStart,
   ⟨runId, m.handlersRef, m.inheritableRef, m.parentRunId⟩)

/-- `handleChainStart`: as `handleLLMStart`, with the chain flag. -/
def CallbackManager.handleChainStart (σ : Heap) (m : CallbackManager)
    (runId : String) : Except String (List Outcome) × BaseRunManager :=
  (fanOut (getArr σ m.handlersRef) (fun h => h.ignoreChain) EventName.chainStart,
   ⟨runId, m.handlersRef, m.inheritableRef, m.parentRunId⟩)

/-- `handleToolStart`: as `handleLLMStart`, with the agent flag. -/
def CallbackManager.handleToolStart (σ : Heap) (m : CallbackManager)
    (runId : String) : Except String (List Outcome) × BaseRunManager :=
  (fanOut (getArr σ m.handlersRef) (fun h => h.ignoreAgent) EventName.toolStart,
   ⟨runId, m.handlersRef, m.inheritableRef, m.parentRunId⟩)

/-- `[...this.handlers].map(handler => handler.copy())`: duplicate a list
of handlers left to right, drawing a fresh object identity for each copy. -/
def copyHandlerList (σ : Heap) : List BaseCallbackHandler →
    Heap × List BaseCallbackHandler
  | [] => (σ, [])
  | h :: hs =>
    let f := freshId σ
    let rest := copyHandlerList f.1 hs
    (rest.1, BaseCallbackHandler.copy h f.2 :: rest.2)

/-- `for (const handler of additionalHandlers) manager.addHandler(handler.copy(), inherit)`:
the sequential loop at the end of `copy`. -/
def addCopies (σ : Heap) (m : CallbackManager) (inherit : Bool) :
    List BaseCallbackHandler → Heap
  | [] => σ
  | h :: hs =>
    let f := freshId σ
    addCopies (CallbackManager.addHandler f.1 m (BaseCallbackHandler.copy h f.2) inherit)
      m inherit hs

/-- `copy(additionalHandlers = [], inherit = true)`: a fresh manager with
the same parent run id, `setHandlers` with duplicated copies of the
current handlers (so all of them become inheritable — `setHandlers`'
default `inherit` is `true`), then `addHandler(handler.copy(), inherit)`
for each additional handler. -/
def CallbackManager.copy (σ : Heap) (m : CallbackManager)
    (additionalHandlers : List BaseCallbackHandler) (inherit : Bool) :
    Heap × CallbackManager :=
  let p0 := CallbackManager.new σ m.parentRunId
  let p1 := copyHandlerList p0.1 (getArr p0.1 m.handlersRef)
  let p2 := CallbackManager.setHandlers p1.1 p0.2 p1.2 true
  (addCopies p2.1 p2.2 inherit additionalHandlers, p2.2)

/-! ## `configure` -/
/-- The first argument of `configure` when present: either an existing
`CallbackManager` or a plain handler array. -/
inductive HandlerSource where
  | manager (m : CallbackManager)
  | list (hs : List BaseCallbackHandler)

/-- Modelled from the spec: `ConsoleCallbackHandler` lives in
`callbacks/handlers/console.ts`, which is not under `src/`.  Per §4.1 a
handler exposes a stable identity name used for the deduplication in
`configure` (§4.3 step 3, the "console trace" identity); the
construction takes a fresh object identity.  Its suppression flags are
off and it implements its callbacks without throwing. -/
def newConsoleCallbackHandler (i : Nat) : BaseCallbackHandler :=
  { hid := i, name := "console_callback_handler",
    ignoreLLM := false, ignoreChain := false, ignoreAgent := false,
    hasMethod := fun _ => true, throwsOn := fun _ => false }

/-- Modelled from the spec: `getTracingCallbackHandler` lives in
`callbacks/handlers/initialize.ts`, which is not under `src/`.  Per
§4.3 step 4 it yields one tracing handler deduplicated by stable name;
`manager.ts` itself checks that name against the string literal
`"langchain_tracer"`, so that is the tracer's stable name. -/
def getTracingCallbackHandler (i : Nat) : BaseCallbackHandler :=
  { hid := i, name := "langchain_tracer",
    ignoreLLM := false, ignoreChain := false, ignoreAgent := false,
    hasMethod := fun _ => true, throwsOn := fun _ => false }

/-- `CallbackManager.configure(inheritableHandlers?, localHandlers?, options?)`.
`verbose` is the truthiness of `options?.verbose`; `tracingEnv` is
whether `process.env.LANGCHAIN_TRACING !== undefined` (read-only ambient
input).  Mirrors the source: (1) if either handler argument is supplied,
build/reuse the base manager and `copy(localHandlers, false)`; (2) if
verbose or tracing, create the manager if still unset, then add the
console handler (if verbose and no handler shares its name) and the
tracing handler (if tracing and no handler named `"langchain_tracer"`). -/
def CallbackManager.configure (σ : Heap)
    (inheritableHandlers : Option HandlerSource)
    (localHandlers : Option (List BaseCallbackHandler))
    (verbose : Bool) (tracingEnv : Bool) : Heap × Option CallbackManager :=
  let p1 : Heap × Option CallbackManager :=
    if inheritableHandlers.isSome || localHandlers.isSome then
      let pBase : Heap × CallbackManager :=
        match inheritableHandlers with
        | some (HandlerSource.manager m) => (σ, m)
        | some (HandlerSource.list hs) =>
          let pn := CallbackManager.new σ none
          CallbackManager.setHandlers pn.1 pn.2 hs true
        | none =>
          let pn := CallbackManager.new σ none
          CallbackManager.setHandlers pn.1 pn.2 [] true
      let pc := CallbackManager.copy pBase.1 pBase.2 (localHandlers.getD []) false
      (pc.1, some pc.2)
    else (σ, none)
  if verbose || tracingEnv then
    let pm : Heap × CallbackManager :=
      match p1.2 with
      | some c => (p1.1, c)
      | none => CallbackManager.new p1.1 none
    let fc := freshId pm.1
    let consoleHandler := newConsoleCallbackHandler fc.2
    let σa :=
      if verbose &&
          !((getArr fc.1 pm.2.handlersRef).any
            (fun h => h.name == consoleHandler.name)) then
        CallbackManager.addHandler fc.1 pm.2 consoleHandler false
      else fc.1
    let σb :=
      if tracingEnv &&
          !((getArr σa pm.2.handlersRef).any
            (fun h => h.name == "langchain_tracer")) then
        let ft := freshId σa
        CallbackManager.addHandler ft.1 pm.2 (getTracingCallbackHandler ft.2) true
      else σa
    (σb, some pm.2)
  else p1

/-! ## Registration-operation sequences (for the inheritance invariant) -/
/-- One mutation of the dispatcher's handler set. -/
inductive MOp where
  | add (handler : BaseCallbackHandler) (inherit : Bool)
  | remove (handler : BaseCallbackHandler)
  | setAll (handlers : List BaseCallbackHandler) (inherit : Bool)

/-- Apply one registration operation to a heap/manager pair. -/
def applyOp (p : Heap × CallbackManager) : MOp → Heap × CallbackManager
  | MOp.add h inherit => (CallbackManager.addHandler p.1 p.2 h inherit, p.2)
  | MOp.remove h => CallbackManager.removeHandler p.1 p.2 h
  | MOp.setAll hs inherit => CallbackManager.setHandlers p.1 p.2 hs inherit

/-- Apply a finite sequence of registration operations. -/
def runOps (p : Heap × CallbackManager) (ops : List MOp) : Heap × CallbackManager :=
  ops.foldl applyOp p

/-- The copies produced by successive `handler.copy()` calls whose fresh
identities start at `n`. -/
def copiesFrom (n : Nat) : List BaseCallbackHandler → List BaseCallbackHandler
  | [] => []
  | h :: hs => BaseCallbackHandler.copy h n :: copiesFrom (n + 1) hs

/-! ## The inheritance invariant -/
/-- Well-formedness of a dispatcher against a heap: both array
references are allocated and distinct, and the inheritable roster is a
sub-collection of the active roster. -/
structure ManagerWF (σ : Heap) (m : CallbackManager) : Prop where
  hlt : m.handlersRef < σ.size
  ilt : m.inheritableRef < σ.size
  hne : m.handlersRef ≠ m.inheritableRef
  sub : ∀ h, h ∈ getArr σ m.inheritableRef → h ∈ getArr σ m.handlersRef

/-! ## Concrete fixtures for witnesses and counterexamples -/
/-- A well-behaved handler implementing every callback. -/
def hPlain : BaseCallbackHandler :=
  ⟨0, "plain", false, false, false, fun _ => true, fun _ => false⟩

/-- A handler whose callbacks all throw. -/
def hBoom : BaseCallbackHandler :=
  ⟨1, "boom", false, false, false, fun _ => true, fun _ => true⟩

/-- A handler with only the pipeline-suppression flag (`ignoreChain`) set. -/
def hChainOff : BaseCallbackHandler :=
  ⟨2, "chainOff", false, true, false, fun _ => true, fun _ => false⟩

/-- A handler with every suppression flag set. -/
def hMute : BaseCallbackHandler :=
  ⟨3, "mute", true, true, true, fun _ => true, fun _ => false⟩

/-- A handler carrying the tracer's stable name. -/
def hTracer : BaseCallbackHandler :=
  ⟨4, "langchain_tracer", false, false, false, fun _ => true, fun _ => false⟩

/-- Another well-behaved handler, distinct from `hPlain`. -/
def hOther : BaseCallbackHandler :=
  ⟨5, "other", false, false, false, fun _ => true, fun _ => false⟩

def σC1 : Heap := ⟨fun r => if r = 0 then [hPlain, hBoom] else [], 2, 0⟩

def rmC1 : BaseRunManager := ⟨"run-1", 0, 1, none⟩

def σC8 : Heap := ⟨fun r => if r = 0 then [hMute] else [], 2, 0⟩

def rmC8 : BaseRunManager := ⟨"run-8", 0, 1, none⟩

/-- The outcome list a dispatch resolved with (`[]` if it rejected;
fan-outs never reject, by `fanOut_eq_ok`). -/
def dispatched (r : Except String (List Outcome)) : List Outcome :=
  (Except.toOption r).getD []

/-- Claim C3 (counterexample): a registered handler with the
pipeline-suppression flag (`ignoreChain`) set, but `ignoreAgent` unset,
*does* receive `handleAgentAction` — the agent events are gated on
`ignoreAgent`, not `ignoreChain`. -/
def σC3 : Heap := ⟨fun r => if r = 0 then [hChainOff] else [], 2, 0⟩

def rmC3 : BaseRunManager := ⟨"run-3", 0, 1, none⟩

def σC3w : Heap := ⟨fun r => if r = 0 then [hChainOff, hPlain] else [], 2, 0⟩

def rmC3w : BaseRunManager := ⟨"run-3w", 0, 1, none⟩

/-! ## Claim C2 -/
def σC2new : Heap := (CallbackManager.new Heap.empty none).1

def dC2 : CallbackManager := (CallbackManager.new Heap.empty none).2

def σC2a : Heap := CallbackManager.addHandler σC2new dC2 hPlain true

def rmC2 : BaseRunManager := (CallbackManager.handleLLMStart σC2a dC2 "run-2").2

def σC2b : Heap := CallbackManager.addHandler σC2a dC2 hOther true

def σC5 : Heap := ⟨fun r => if r = 1 then [hPlain] else [], 2, 0⟩

def rmC5 : BaseRunManager := ⟨"run-5", 0, 1, none⟩

/-! ## Claim C7 -/
/-- Number of handlers carrying the tracer's stable name. -/
def countTracers (hs : List BaseCallbackHandler) : Nat :=
  hs.countP (fun h => h.name == "langchain_tracer")

def σC7 : Heap := ⟨fun r => if r = 0 then [hTracer] else [], 2, 0⟩

def mC7 : CallbackManager := ⟨0, 1, none⟩

def σC9 : Heap := ⟨fun r => if r = 0 then [hPlain] else [], 2, 0⟩

def mC9 : CallbackManager := ⟨0, 1, none⟩

def σC10 : Heap :=
  ⟨fun r => if r = 0 then [hPlain] else if r = 1 then [hPlain] else [], 2, 0⟩

def mC10 : CallbackManager := ⟨0, 1, none⟩

theorem tryInvoke_eq (ev : EventName) (h : BaseCallbackHandler) :
    tryInvoke ev h = Except.ok (taskOutcome (fun _ => false) ev h) := by
  unfold tryInvoke invokeMethod taskOutcome
  by_cases hm : h.hasMethod ev <;> by_cases ht : h.throwsOn ev <;> simp [hm, ht]

/-- `Promise.all` over tasks that all resolve, resolves with their values. -/
theorem promiseAll_map_ok {α β : Type} (f : β → α) (l : List β) :
    promiseAll (l.map fun x => Except.ok (f x)) = Except.ok (l.map f) := by
  induction l with
  | nil => rfl
  | cons x l ih => simp [promiseAll, ih]

theorem task_eq (ignore : BaseCallbackHandler → Bool) (ev : EventName)
    (h : BaseCallbackHandler) :
    (if ignore h then Except.ok Outcome.noop else tryInvoke ev h) =
      Except.ok (taskOutcome ignore ev h) := by
  by_cases hig : ignore h
  · simp [hig, taskOutcome]
  · rw [if_neg (by simp [hig]), tryInvoke_eq]
    simp [taskOutcome, hig]

/-- A fan-out never rejects: it resolves with the pointwise task outcomes. -/
theorem fanOut_eq_ok (hs : List BaseCallbackHandler)
    (ignore : BaseCallbackHandler → Bool) (ev : EventName) :
    fanOut hs ignore ev = Except.ok (hs.map (taskOutcome ignore ev)) := by
  unfold fanOut
  rw [funext (task_eq ignore ev), promiseAll_map_ok]

/-- `handleText`'s fan-out never rejects either. -/
theorem fanOutAll_eq_ok (hs : List BaseCallbackHandler) (ev : EventName) :
    fanOutAll hs ev = Except.ok (hs.map (taskOutcome (fun _ => false) ev)) := by
  unfold fanOutAll
  rw [funext (tryInvoke_eq ev), promiseAll_map_ok]

/-- A handler in the list that is not suppressed and implements the
method receives the event. -/
theorem hid_received (hs : List BaseCallbackHandler)
    (ignore : BaseCallbackHandler → Bool) (ev : EventName)
    (h : BaseCallbackHandler) (hmem : h ∈ hs) (hig : ignore h = false)
    (hm : h.hasMethod ev = true) :
    h.hid ∈ receivedIds (hs.map (taskOutcome ignore ev)) := by
  induction hs with
  | nil => cases hmem
  | cons h0 hs ih =>
    rw [List.map_cons]
    rcases List.mem_cons.mp hmem with rfl | hmem'
    · by_cases ht : h.throwsOn ev <;>
        simp [taskOutcome, receivedIds, hig, hm, ht]
    · have tail := ih hmem'
      rcases o : taskOutcome ignore ev h0 with j | ⟨j, m⟩ | - <;>
        simp only [receivedIds]
      · exact List.mem_cons_of_mem _ tail
      · exact List.mem_cons_of_mem _ tail
      · exact tail

/-- An id appearing in a task outcome is the id of the handler of that task. -/
theorem taskOutcome_hid (ignore : BaseCallbackHandler → Bool) (ev : EventName)
    (h : BaseCallbackHandler) (i : Nat)
    (ho : taskOutcome ignore ev h = Outcome.invoked i ∨
      ∃ m, taskOutcome ignore ev h = Outcome.caught i m) :
    i = h.hid := by
  unfold taskOutcome at ho
  by_cases hi : ignore h <;> by_cases hm : h.hasMethod ev <;>
    by_cases ht : h.throwsOn ev <;> simp [hi, hm, ht] at ho <;> omega

/-- Every id received in a fan-out is the id of some handler of the list. -/
theorem receivedIds_subset (hs : List BaseCallbackHandler)
    (ignore : BaseCallbackHandler → Bool) (ev : EventName) (i : Nat)
    (hin : i ∈ receivedIds (hs.map (taskOutcome ignore ev))) :
    i ∈ hs.map BaseCallbackHandler.hid := by
  induction hs with
  | nil => cases hin
  | cons h0 hs ih =>
    rw [List.map_cons] at hin ⊢
    rcases o : taskOutcome ignore ev h0 with j | ⟨j, m⟩ | -
    · rw [o] at hin
      simp only [receivedIds] at hin
      rcases List.mem_cons.mp hin with rfl | hin'
      · exact (taskOutcome_hid ignore ev h0 i (Or.inl o)) ▸ List.mem_cons_self _ _
      · exact List.mem_cons_of_mem _ (ih hin')
    · rw [o] at hin
      simp only [receivedIds] at hin
      rcases List.mem_cons.mp hin with rfl | hin'
      · exact (taskOutcome_hid ignore ev h0 i (Or.inr ⟨m, o⟩)) ▸ List.mem_cons_self _ _
      · exact List.mem_cons_of_mem _ (ih hin')
    · rw [o] at hin
      simp only [receivedIds] at hin
      exact List.mem_cons_of_mem _ (ih hin)

/-- A suppressed handler never receives the event (stated for a handler
list whose object identities are distinct). -/
theorem hid_not_received (hs : List BaseCallbackHandler)
    (ignore : BaseCallbackHandler → Bool) (ev : EventName)
    (h : BaseCallbackHandler)
    (hnd : (hs.map BaseCallbackHandler.hid).Nodup)
    (hmem : h ∈ hs) (hig : ignore h = true) :
    h.hid ∉ receivedIds (hs.map (taskOutcome ignore ev)) := by
  induction hs with
  | nil => cases hmem
  | cons h0 hs ih =>
    rw [List.map_cons, List.nodup_cons] at hnd
    rw [List.map_cons]
    rcases List.mem_cons.mp hmem with rfl | hmem'
    · have tail : h.hid ∉ receivedIds (hs.map (taskOutcome ignore ev)) :=
        fun hin => hnd.1 (receivedIds_subset hs ignore ev h.hid hin)
      simp [taskOutcome, hig, receivedIds, tail]
    · have hne : h0.hid ≠ h.hid := fun e =>
        hnd.1 (e ▸ List.mem_map_of_mem BaseCallbackHandler.hid hmem')
      have tail := ih hnd.2 hmem'
      intro hin
      rcases o : taskOutcome ignore ev h0 with j | ⟨j, m⟩ | - <;> rw [o] at hin <;>
        simp only [receivedIds] at hin
      · rcases List.mem_cons.mp hin with e | hin'
        · exact hne ((taskOutcome_hid ignore ev h0 j (Or.inl o)) ▸ e.symm)
        · exact tail hin'
      · rcases List.mem_cons.mp hin with e | hin'
        · exact hne ((taskOutcome_hid ignore ev h0 j (Or.inr ⟨m, o⟩)) ▸ e.symm)
        · exact tail hin'
      · exact tail hin

/-! ## Heap lemmas -/
theorem getArr_setArr_self (σ : Heap) (r : Nat) (a : List BaseCallbackHandler) :
    getArr (setArr σ r a) r = a := by
  simp [getArr, setArr]

theorem getArr_setArr_ne (σ : Heap) (r r' : Nat) (a : List BaseCallbackHandler)
    (hne : r' ≠ r) : getArr (setArr σ r a) r' = getArr σ r' := by
  simp [getArr, setArr, hne]

theorem size_setArr (σ : Heap) (r : Nat) (a : List BaseCallbackHandler) :
    (setArr σ r a).size = σ.size := rfl

theorem nextId_setArr (σ : Heap) (r : Nat) (a : List BaseCallbackHandler) :
    (setArr σ r a).nextId = σ.nextId := rfl

theorem getArr_pushArr_self (σ : Heap) (r : Nat) (h : BaseCallbackHandler) :
    getArr (pushArr σ r h) r = getArr σ r ++ [h] :=
  getArr_setArr_self σ r _

theorem getArr_pushArr_ne (σ : Heap) (r r' : Nat) (h : BaseCallbackHandler)
    (hne : r' ≠ r) : getArr (pushArr σ r h) r' = getArr σ r' :=
  getArr_setArr_ne σ r r' _ hne

theorem size_pushArr (σ : Heap) (r : Nat) (h : BaseCallbackHandler) :
    (pushArr σ r h).size = σ.size := rfl

theorem nextId_pushArr (σ : Heap) (r : Nat) (h : BaseCallbackHandler) :
    (pushArr σ r h).nextId = σ.nextId := rfl

theorem getArr_allocArr_new (σ : Heap) (a : List BaseCallbackHandler) :
    getArr (allocArr σ a).1 σ.size = a := by
  simp [getArr, allocArr]

theorem getArr_allocArr_ne (σ : Heap) (a : List BaseCallbackHandler) (r : Nat)
    (hr : r ≠ σ.size) : getArr (allocArr σ a).1 r = getArr σ r := by
  simp [getArr, allocArr, hr]

theorem getArr_allocArr_old (σ : Heap) (a : List BaseCallbackHandler) (r : Nat)
    (hr : r < σ.size) : getArr (allocArr σ a).1 r = getArr σ r :=
  getArr_allocArr_ne σ a r (Nat.ne_of_lt hr)

theorem allocArr_ref (σ : Heap) (a : List BaseCallbackHandler) :
    (allocArr σ a).2 = σ.size := rfl

theorem size_allocArr (σ : Heap) (a : List BaseCallbackHandler) :
    (allocArr σ a).1.size = σ.size + 1 := rfl

theorem nextId_allocArr (σ : Heap) (a : List BaseCallbackHandler) :
    (allocArr σ a).1.nextId = σ.nextId := rfl

/-! ## `addHandler` and `setHandlers` lemmas -/
theorem addHandler_handlers (σ : Heap) (m : CallbackManager)
    (h : BaseCallbackHandler) (inherit : Bool)
    (hne : m.handlersRef ≠ m.inheritableRef) :
    getArr (CallbackManager.addHandler σ m h inherit) m.handlersRef =
      getArr σ m.handlersRef ++ [h] := by
  unfold CallbackManager.addHandler
  by_cases hi : inherit
  · rw [if_pos hi, getArr_pushArr_ne _ _ _ _ hne, getArr_pushArr_self]
  · rw [if_neg hi, getArr_pushArr_self]

theorem addHandler_inheritable (σ : Heap) (m : CallbackManager)
    (h : BaseCallbackHandler) (inherit : Bool)
    (hne : m.handlersRef ≠ m.inheritableRef) :
    getArr (CallbackManager.addHandler σ m h inherit) m.inheritableRef =
      getArr σ m.inheritableRef ++ (if inherit then [h] else []) := by
  unfold CallbackManager.addHandler
  by_cases hi : inherit
  · rw [if_pos hi, if_pos hi, getArr_pushArr_self,
      getArr_pushArr_ne _ _ _ _ (Ne.symm hne)]
  · rw [if_neg hi, if_neg hi, getArr_pushArr_ne _ _ _ _ (Ne.symm hne),
      List.append_nil]

theorem addHandler_other (σ : Heap) (m : CallbackManager)
    (h : BaseCallbackHandler) (inherit : Bool) (r : Nat)
    (hr1 : r ≠ m.handlersRef) (hr2 : r ≠ m.inheritableRef) :
    getArr (CallbackManager.addHandler σ m h inherit) r = getArr σ r := by
  unfold CallbackManager.addHandler
  by_cases hi : inherit
  · rw [if_pos hi, getArr_pushArr_ne _ _ _ _ hr2, getArr_pushArr_ne _ _ _ _ hr1]
  · rw [if_neg hi, getArr_pushArr_ne _ _ _ _ hr1]

theorem size_addHandler (σ : Heap) (m : CallbackManager)
    (h : BaseCallbackHandler) (inherit : Bool) :
    (CallbackManager.addHandler σ m h inherit).size = σ.size := by
  unfold CallbackManager.addHandler
  by_cases hi : inherit <;> simp [hi, size_pushArr]

theorem nextId_addHandler (σ : Heap) (m : CallbackManager)
    (h : BaseCallbackHandler) (inherit : Bool) :
    (CallbackManager.addHandler σ m h inherit).nextId = σ.nextId := by
  unfold CallbackManager.addHandler
  by_cases hi : inherit <;> simp [hi, nextId_pushArr]

/-- Full description of the `addHandler` fold used by `setHandlers`. -/
theorem foldl_addHandler_spec (hs : List BaseCallbackHandler) (σ : Heap)
    (m : CallbackManager) (inherit : Bool)
    (hne : m.handlersRef ≠ m.inheritableRef) :
    getArr (hs.foldl (fun σ h => CallbackManager.addHandler σ m h inherit) σ)
        m.handlersRef = getArr σ m.handlersRef ++ hs ∧
    getArr (hs.foldl (fun σ h => CallbackManager.addHandler σ m h inherit) σ)
        m.inheritableRef =
      getArr σ m.inheritableRef ++ (if inherit then hs else []) ∧
    (hs.foldl (fun σ h => CallbackManager.addHandler σ m h inherit) σ).size =
      σ.size ∧
    (hs.foldl (fun σ h => CallbackManager.addHandler σ m h inherit) σ).nextId =
      σ.nextId ∧
    ∀ r, r ≠ m.handlersRef → r ≠ m.inheritableRef →
      getArr (hs.foldl (fun σ h => CallbackManager.addHandler σ m h inherit) σ) r =
        getArr σ r := by
  induction hs generalizing σ with
  | nil => simp
  | cons h hs ih =>
    rcases ih (CallbackManager.addHandler σ m h inherit) with
      ⟨ih1, ih2, ih3, ih4, ih5⟩
    refine ⟨?_, ?_, ?_, ?_, ?_⟩
    · rw [List.foldl_cons, ih1, addHandler_handlers σ m h inherit hne,
        List.append_assoc]
      rfl
    · rw [List.foldl_cons, ih2, addHandler_inheritable σ m h inherit hne,
        List.append_assoc]
      by_cases hi : inherit <;> simp [hi]
    · rw [List.foldl_cons, ih3, size_addHandler]
    · rw [List.foldl_cons, ih4, nextId_addHandler]
    · intro r hr1 hr2
      rw [List.foldl_cons, ih5 r hr1 hr2, addHandler_other σ m h inherit r hr1 hr2]

/-- Full description of `setHandlers`. -/
theorem setHandlers_spec (σ : Heap) (m : CallbackManager)
    (hs : List BaseCallbackHandler) (inherit : Bool) :
    (CallbackManager.setHandlers σ m hs inherit).2.handlersRef = σ.size ∧
    (CallbackManager.setHandlers σ m hs inherit).2.inheritableRef = σ.size + 1 ∧
    (CallbackManager.setHandlers σ m hs inherit).2.parentRunId = m.parentRunId ∧
    getArr (CallbackManager.setHandlers σ m hs inherit).1 σ.size = hs ∧
    getArr (CallbackManager.setHandlers σ m hs inherit).1 (σ.size + 1) =
      (if inherit then hs else []) ∧
    (CallbackManager.setHandlers σ m hs inherit).1.size = σ.size + 2 ∧
    (CallbackManager.setHandlers σ m hs inherit).1.nextId = σ.nextId ∧
    ∀ r, r < σ.size →
      getArr (CallbackManager.setHandlers σ m hs inherit).1 r = getArr σ r := by
  rcases foldl_addHandler_spec hs (allocArr (allocArr σ []).1 []).1
      { m with handlersRef := σ.size, inheritableRef := σ.size + 1 } inherit
      (show σ.size ≠ σ.size + 1 by omega) with ⟨f1, f2, f3, f4, f5⟩
  have g1 : getArr (allocArr (allocArr σ []).1 []).1 σ.size = [] := by
    rw [getArr_allocArr_ne _ _ _ (show σ.size ≠ (allocArr σ []).1.size by
      rw [size_allocArr]; omega)]
    exact getArr_allocArr_new σ []
  have g2 : getArr (allocArr (allocArr σ []).1 []).1 (σ.size + 1) = [] :=
    getArr_allocArr_new (allocArr σ []).1 []
  refine ⟨rfl, rfl, rfl, ?_, ?_, ?_, ?_, ?_⟩ <;>
    simp only [CallbackManager.setHandlers, allocArr_ref, size_allocArr]
  · rw [f1, g1]
    rfl
  · rw [f2, g2]
    rfl
  · rw [f3]
    rfl
  · rw [f4]
    rfl
  · intro r hr
    rw [f5 r (show r ≠ σ.size by omega) (show r ≠ σ.size + 1 by omega),
      getArr_allocArr_ne _ _ _ (show r ≠ (allocArr σ []).1.size by
        rw [size_allocArr]; omega),
      getArr_allocArr_ne _ _ _ (by omega)]

/-! ## `new`, `removeHandler`, `copy` lemmas -/
theorem getArr_freshId (σ : Heap) (r : Nat) :
    getArr (freshId σ).1 r = getArr σ r := rfl

theorem size_freshId (σ : Heap) : (freshId σ).1.size = σ.size := rfl

theorem nextId_freshId (σ : Heap) : (freshId σ).1.nextId = σ.nextId + 1 := rfl

theorem freshId_val (σ : Heap) : (freshId σ).2 = σ.nextId := rfl

theorem new_spec (σ : Heap) (parent : Option String) :
    (CallbackManager.new σ parent).2 = ⟨σ.size, σ.size + 1, parent⟩ ∧
    getArr (CallbackManager.new σ parent).1 σ.size = [] ∧
    getArr (CallbackManager.new σ parent).1 (σ.size + 1) = [] ∧
    (CallbackManager.new σ parent).1.size = σ.size + 2 ∧
    (CallbackManager.new σ parent).1.nextId = σ.nextId ∧
    ∀ r, r < σ.size → getArr (CallbackManager.new σ parent).1 r = getArr σ r := by
  refine ⟨rfl, ?_, ?_, rfl, rfl, ?_⟩
  · simp only [CallbackManager.new]
    rw [getArr_allocArr_ne _ _ _ (show σ.size ≠ (allocArr σ []).1.size by
      rw [size_allocArr]; omega)]
    exact getArr_allocArr_new σ []
  · exact getArr_allocArr_new (allocArr σ []).1 []
  · intro r hr
    simp only [CallbackManager.new]
    rw [getArr_allocArr_ne _ _ _ (show r ≠ (allocArr σ []).1.size by
        rw [size_allocArr]; omega),
      getArr_allocArr_ne _ _ _ (by omega)]

theorem removeHandler_spec (σ : Heap) (m : CallbackManager)
    (handler : BaseCallbackHandler) (ilt : m.inheritableRef < σ.size) :
    (CallbackManager.removeHandler σ m handler).2.handlersRef = σ.size ∧
    (CallbackManager.removeHandler σ m handler).2.inheritableRef = σ.size + 1 ∧
    (CallbackManager.removeHandler σ m handler).2.parentRunId = m.parentRunId ∧
    getArr (CallbackManager.removeHandler σ m handler).1 σ.size =
      (getArr σ m.handlersRef).filter (fun h => h.hid != handler.hid) ∧
    getArr (CallbackManager.removeHandler σ m handler).1 (σ.size + 1) =
      (getArr σ m.inheritableRef).filter (fun h => h.hid != handler.hid) ∧
    (CallbackManager.removeHandler σ m handler).1.size = σ.size + 2 ∧
    (CallbackManager.removeHandler σ m handler).1.nextId = σ.nextId ∧
    ∀ r, r < σ.size →
      getArr (CallbackManager.removeHandler σ m handler).1 r = getArr σ r := by
  refine ⟨rfl, rfl, rfl, ?_, ?_, rfl, rfl, ?_⟩ <;>
    simp only [CallbackManager.removeHandler, allocArr_ref, size_allocArr]
  · rw [getArr_allocArr_ne _ _ _ (show σ.size ≠
        (allocArr σ ((getArr σ m.handlersRef).filter
          (fun h => h.hid != handler.hid))).1.size by rw [size_allocArr]; omega)]
    exact getArr_allocArr_new σ _
  · rw [getArr_allocArr_old σ _ m.inheritableRef ilt]
    exact getArr_allocArr_new _ _
  · intro r hr
    rw [getArr_allocArr_ne _ _ _ (show r ≠
        (allocArr σ ((getArr σ m.handlersRef).filter
          (fun h => h.hid != handler.hid))).1.size by rw [size_allocArr]; omega),
      getArr_allocArr_ne _ _ _ (by omega)]

theorem copiesFrom_name (n : Nat) (hs : List BaseCallbackHandler) :
    (copiesFrom n hs).map BaseCallbackHandler.name =
      hs.map BaseCallbackHandler.name := by
  induction hs generalizing n with
  | nil => rfl
  | cons h hs ih => simp [copiesFrom, BaseCallbackHandler.copy, ih]

theorem copiesFrom_length (n : Nat) (hs : List BaseCallbackHandler) :
    (copiesFrom n hs).length = hs.length := by
  induction hs generalizing n with
  | nil => rfl
  | cons h hs ih => simp [copiesFrom, ih]

theorem copyHandlerList_spec (σ : Heap) (hs : List BaseCallbackHandler) :
    copyHandlerList σ hs =
      ({ σ with nextId := σ.nextId + hs.length }, copiesFrom σ.nextId hs) := by
  induction hs generalizing σ with
  | nil => simp [copyHandlerList, copiesFrom]
  | cons h hs ih =>
    simp only [copyHandlerList, copiesFrom, ih]
    refine Prod.ext ?_ rfl
    simp [freshId]
    omega

/-- Full description of the `addHandler(handler.copy(), inherit)` loop of `copy`. -/
theorem addCopies_spec (hs : List BaseCallbackHandler) (σ : Heap)
    (m : CallbackManager) (inherit : Bool)
    (hne : m.handlersRef ≠ m.inheritableRef) :
    getArr (addCopies σ m inherit hs) m.handlersRef =
      getArr σ m.handlersRef ++ copiesFrom σ.nextId hs ∧
    getArr (addCopies σ m inherit hs) m.inheritableRef =
      getArr σ m.inheritableRef ++ (if inherit then copiesFrom σ.nextId hs else []) ∧
    (addCopies σ m inherit hs).size = σ.size ∧
    ∀ r, r ≠ m.handlersRef → r ≠ m.inheritableRef →
      getArr (addCopies σ m inherit hs) r = getArr σ r := by
  induction hs generalizing σ with
  | nil => simp [addCopies, copiesFrom]
  | cons h hs ih =>
    simp only [addCopies, freshId_val]
    rcases ih (CallbackManager.addHandler (freshId σ).1 m
      (BaseCallbackHandler.copy h σ.nextId) inherit) with ⟨ih1, ih2, ih3, ih4⟩
    have ha : getArr (CallbackManager.addHandler (freshId σ).1 m
        (BaseCallbackHandler.copy h σ.nextId) inherit) m.handlersRef =
        getArr σ m.handlersRef ++ [BaseCallbackHandler.copy h σ.nextId] :=
      addHandler_handlers (freshId σ).1 m _ inherit hne
    have hb : getArr (CallbackManager.addHandler (freshId σ).1 m
        (BaseCallbackHandler.copy h σ.nextId) inherit) m.inheritableRef =
        getArr σ m.inheritableRef ++
          (if inherit then [BaseCallbackHandler.copy h σ.nextId] else []) :=
      addHandler_inheritable (freshId σ).1 m _ inherit hne
    have hnid : (CallbackManager.addHandler (freshId σ).1 m
        (BaseCallbackHandler.copy h σ.nextId) inherit).nextId = σ.nextId + 1 :=
      nextId_addHandler (freshId σ).1 m _ inherit
    refine ⟨?_, ?_, ?_, ?_⟩
    · rw [ih1, ha, hnid, List.append_assoc]
      rfl
    · rw [ih2, hb, hnid]
      by_cases hi : inherit <;> simp [hi, copiesFrom]
    · rw [ih3, size_addHandler, size_freshId]
    · intro r hr1 hr2
      rw [ih4 r hr1 hr2, addHandler_other _ _ _ _ _ hr1 hr2, getArr_freshId]

theorem getArr_withNextId (σ : Heap) (x r : Nat) :
    getArr { σ with nextId := x } r = getArr σ r := rfl

theorem getArr_mk (f : Nat → List BaseCallbackHandler) (s n r : Nat) :
    getArr ⟨f, s, n⟩ r = f r := rfl

/-- Combined description of `setHandlers(cs)` followed by the
`addHandler(handler.copy(), inherit)` loop, the tail of `copy`. -/
theorem setAdd_spec (σ : Heap) (m : CallbackManager)
    (cs additional : List BaseCallbackHandler) (inherit : Bool) :
    (CallbackManager.setHandlers σ m cs true).2.handlersRef = σ.size ∧
    (CallbackManager.setHandlers σ m cs true).2.inheritableRef = σ.size + 1 ∧
    (CallbackManager.setHandlers σ m cs true).2.parentRunId = m.parentRunId ∧
    getArr (addCopies (CallbackManager.setHandlers σ m cs true).1
        (CallbackManager.setHandlers σ m cs true).2 inherit additional) σ.size =
      cs ++ copiesFrom σ.nextId additional ∧
    getArr (addCopies (CallbackManager.setHandlers σ m cs true).1
        (CallbackManager.setHandlers σ m cs true).2 inherit additional) (σ.size + 1) =
      cs ++ (if inherit then copiesFrom σ.nextId additional else []) ∧
    (addCopies (CallbackManager.setHandlers σ m cs true).1
        (CallbackManager.setHandlers σ m cs true).2 inherit additional).size =
      σ.size + 2 ∧
    ∀ r, r < σ.size →
      getArr (addCopies (CallbackManager.setHandlers σ m cs true).1
        (CallbackManager.setHandlers σ m cs true).2 inherit additional) r =
        getArr σ r := by
  obtain ⟨s1, s2, s3, s4, s5, s6, s7, s8⟩ := setHandlers_spec σ m cs true
  obtain ⟨a1, a2, a3, a4⟩ := addCopies_spec additional
    (CallbackManager.setHandlers σ m cs true).1
    (CallbackManager.setHandlers σ m cs true).2 inherit (by rw [s1, s2]; omega)
  refine ⟨s1, s2, s3, ?_, ?_, ?_, ?_⟩
  · rw [← s1, a1, s1, s4, s7]
  · rw [← s2, a2, s2, s5, s7]
    simp
  · rw [a3, s6]
  · intro r hr
    rw [a4 r (by rw [s1]; omega) (by rw [s2]; omega), s8 r hr]

/-- Full description of `copy`. -/
theorem copy_spec (σ : Heap) (m : CallbackManager)
    (additional : List BaseCallbackHandler) (inherit : Bool)
    (hlt : m.handlersRef < σ.size) :
    (CallbackManager.copy σ m additional inherit).2.handlersRef = σ.size + 2 ∧
    (CallbackManager.copy σ m additional inherit).2.inheritableRef = σ.size + 3 ∧
    (CallbackManager.copy σ m additional inherit).2.parentRunId = m.parentRunId ∧
    getArr (CallbackManager.copy σ m additional inherit).1 (σ.size + 2) =
      copiesFrom σ.nextId (getArr σ m.handlersRef) ++
        copiesFrom (σ.nextId + (getArr σ m.handlersRef).length) additional ∧
    getArr (CallbackManager.copy σ m additional inherit).1 (σ.size + 3) =
      copiesFrom σ.nextId (getArr σ m.handlersRef) ++
        (if inherit then
          copiesFrom (σ.nextId + (getArr σ m.handlersRef).length) additional
         else []) ∧
    (CallbackManager.copy σ m additional inherit).1.size = σ.size + 4 ∧
    ∀ r, r < σ.size →
      getArr (CallbackManager.copy σ m additional inherit).1 r = getArr σ r := by
  obtain ⟨n1, n2, n3, n4, n5, n6⟩ := new_spec σ m.parentRunId
  have hA : getArr (CallbackManager.new σ m.parentRunId).1 m.handlersRef =
      getArr σ m.handlersRef := n6 m.handlersRef hlt
  have e1 : σ.size + 2 + 1 = σ.size + 3 := by omega
  have e2 : σ.size + 2 + 2 = σ.size + 4 := by omega
  simp only [CallbackManager.copy, hA, copyHandlerList_spec, n5, n4, n1]
  obtain ⟨t1, t2, t3, t4, t5, t6, t7⟩ := setAdd_spec
    { (CallbackManager.new σ m.parentRunId).1 with
        nextId := σ.nextId + (getArr σ m.handlersRef).length }
    (CallbackManager.new σ m.parentRunId).2
    (copiesFrom σ.nextId (getArr σ m.handlersRef)) additional inherit
  simp only [n4, n1, e1, e2] at t1 t2 t3 t4 t5 t6 t7
  refine ⟨t1, t2, t3, t4, t5, t6, ?_⟩
  intro r hr
  rw [t7 r (by omega), getArr_mk]
  exact n6 r hr

theorem removeHandler_frame (σ : Heap) (m : CallbackManager)
    (handler : BaseCallbackHandler) (r : Nat) (hr : r < σ.size) :
    getArr (CallbackManager.removeHandler σ m handler).1 r = getArr σ r := by
  simp only [CallbackManager.removeHandler]
  rw [getArr_allocArr_ne _ _ _ (show r ≠
      (allocArr σ ((getArr σ m.handlersRef).filter
        (fun h => h.hid != handler.hid))).1.size by rw [size_allocArr]; omega),
    getArr_allocArr_ne _ _ _ (by omega)]

theorem wf_new (σ : Heap) (parent : Option String) :
    ManagerWF (CallbackManager.new σ parent).1 (CallbackManager.new σ parent).2 := by
  obtain ⟨n1, n2, n3, n4, n5, n6⟩ := new_spec σ parent
  have e1 : (CallbackManager.new σ parent).2.handlersRef = σ.size := by rw [n1]
  have e2 : (CallbackManager.new σ parent).2.inheritableRef = σ.size + 1 := by
    rw [n1]
  refine ⟨?_, ?_, ?_, ?_⟩
  · rw [e1, n4]; omega
  · rw [e2, n4]; omega
  · rw [e1, e2]; omega
  · intro h hmem
    rw [e2, n3] at hmem
    cases hmem

theorem wf_addHandler (σ : Heap) (m : CallbackManager)
    (handler : BaseCallbackHandler) (inherit : Bool) (wf : ManagerWF σ m) :
    ManagerWF (CallbackManager.addHandler σ m handler inherit) m := by
  refine ⟨?_, ?_, wf.hne, ?_⟩
  · rw [size_addHandler]; exact wf.hlt
  · rw [size_addHandler]; exact wf.ilt
  · intro h hmem
    rw [addHandler_inheritable σ m handler inherit wf.hne] at hmem
    rw [addHandler_handlers σ m handler inherit wf.hne]
    rcases List.mem_append.mp hmem with hmem' | hmem'
    · exact List.mem_append_left _ (wf.sub h hmem')
    · refine List.mem_append_right _ ?_
      by_cases hi : inherit <;> simp [hi] at hmem' <;> simp [hmem']

theorem wf_removeHandler (σ : Heap) (m : CallbackManager)
    (handler : BaseCallbackHandler) (wf : ManagerWF σ m) :
    ManagerWF (CallbackManager.removeHandler σ m handler).1
      (CallbackManager.removeHandler σ m handler).2 := by
  obtain ⟨r1, r2, r3, r4, r5, r6, r7, r8⟩ := removeHandler_spec σ m handler wf.ilt
  refine ⟨?_, ?_, ?_, ?_⟩
  · rw [r1, r6]; omega
  · rw [r2, r6]; omega
  · rw [r1, r2]; omega
  · intro h hmem
    rw [r2, r5] at hmem
    rw [r1, r4]
    rw [List.mem_filter] at hmem ⊢
    exact ⟨wf.sub h hmem.1, hmem.2⟩

theorem wf_setHandlers (σ : Heap) (m : CallbackManager)
    (hs : List BaseCallbackHandler) (inherit : Bool) :
    ManagerWF (CallbackManager.setHandlers σ m hs inherit).1
      (CallbackManager.setHandlers σ m hs inherit).2 := by
  obtain ⟨s1, s2, s3, s4, s5, s6, s7, s8⟩ := setHandlers_spec σ m hs inherit
  refine ⟨?_, ?_, ?_, ?_⟩
  · rw [s1, s6]; omega
  · rw [s2, s6]; omega
  · rw [s1, s2]; omega
  · intro h hmem
    rw [s2, s5] at hmem
    rw [s1, s4]
    by_cases hi : inherit
    · rw [if_pos hi] at hmem; exact hmem
    · rw [if_neg hi] at hmem; cases hmem

theorem wf_applyOp (p : Heap × CallbackManager) (op : MOp)
    (wf : ManagerWF p.1 p.2) : ManagerWF (applyOp p op).1 (applyOp p op).2 := by
  cases op with
  | add h inherit => exact wf_addHandler p.1 p.2 h inherit wf
  | remove h => exact wf_removeHandler p.1 p.2 h wf
  | setAll hs inherit => exact wf_setHandlers p.1 p.2 hs inherit

theorem wf_runOps (p : Heap × CallbackManager) (ops : List MOp)
    (wf : ManagerWF p.1 p.2) : ManagerWF (runOps p ops).1 (runOps p ops).2 := by
  induction ops generalizing p with
  | nil => exact wf
  | cons op ops ih => exact ih (applyOp p op) (wf_applyOp p op wf)

/-! ## Claims -/
/-- Claim C1: if handler `k` among a run's registered handlers throws on
`handleLLMEnd` (resp. `handleText`), dispatching the event still resolves
without throwing (`Except.ok`) and every other applicable handler still
receives the event. -/
theorem C1_isolation (σ : Heap) (rm : BaseRunManager) (k : BaseCallbackHandler)
    (hk : k ∈ getArr σ rm.handlersRef)
    (hthrow : k.throwsOn EventName.llmEnd = true) :
    (∃ out, CallbackManagerForLLMRun.handleLLMEnd rm σ = Except.ok out ∧
      ∀ h ∈ getArr σ rm.handlersRef, h.hid ≠ k.hid → h.ignoreLLM = false →
        h.hasMethod EventName.llmEnd = true → h.hid ∈ receivedIds out) ∧
    (∃ out, rm.handleText σ = Except.ok out ∧
      ∀ h ∈ getArr σ rm.handlersRef, h.hid ≠ k.hid →
        h.hasMethod EventName.text = true → h.hid ∈ receivedIds out) := by
  constructor
  · exact ⟨_, fanOut_eq_ok _ _ _, fun h hm hne hig hmeth =>
      hid_received _ _ _ h hm hig hmeth⟩
  · exact ⟨_, fanOutAll_eq_ok _ _, fun h hm hne hmeth =>
      hid_received _ _ _ h hm rfl hmeth⟩

theorem C1_isolation_witness :
    (hBoom ∈ getArr σC1 rmC1.handlersRef ∧
      hBoom.throwsOn EventName.llmEnd = true) ∧
    ((∃ out, CallbackManagerForLLMRun.handleLLMEnd rmC1 σC1 = Except.ok out ∧
      ∀ h ∈ getArr σC1 rmC1.handlersRef, h.hid ≠ hBoom.hid → h.ignoreLLM = false →
        h.hasMethod EventName.llmEnd = true → h.hid ∈ receivedIds out) ∧
    (∃ out, rmC1.handleText σC1 = Except.ok out ∧
      ∀ h ∈ getArr σC1 rmC1.handlersRef, h.hid ≠ hBoom.hid →
        h.hasMethod EventName.text = true → h.hid ∈ receivedIds out)) :=
  ⟨⟨List.Mem.tail _ (List.Mem.head _), rfl⟩,
    C1_isolation σC1 rmC1 hBoom (List.Mem.tail _ (List.Mem.head _)) rfl⟩

/-- Claim C8: `handleText` delivers the text event to every handler of
the run's handler array that implements it — no suppression flag is
consulted (the statement imposes no condition on the flags). -/
theorem C8_handleText (σ : Heap) (rm : BaseRunManager)
    (h : BaseCallbackHandler) (hmem : h ∈ getArr σ rm.handlersRef)
    (hm : h.hasMethod EventName.text = true) :
    ∃ out, rm.handleText σ = Except.ok out ∧ h.hid ∈ receivedIds out :=
  ⟨_, fanOutAll_eq_ok _ _, hid_received _ _ _ h hmem rfl hm⟩

theorem C8_handleText_witness :
    (hMute ∈ getArr σC8 rmC8.handlersRef ∧
      hMute.hasMethod EventName.text = true ∧
      hMute.ignoreLLM = true ∧ hMute.ignoreChain = true ∧
      hMute.ignoreAgent = true) ∧
    (∃ out, rmC8.handleText σC8 = Except.ok out ∧
      hMute.hid ∈ receivedIds out) :=
  ⟨⟨List.Mem.head _, rfl, rfl, rfl, rfl⟩,
    C8_handleText σC8 rmC8 hMute (List.Mem.head _) rfl⟩

theorem dispatched_fanOut (hs : List BaseCallbackHandler)
    (ignore : BaseCallbackHandler → Bool) (ev : EventName) :
    dispatched (fanOut hs ignore ev) = hs.map (taskOutcome ignore ev) := by
  rw [dispatched, fanOut_eq_ok]
  rfl

theorem C3_counterexample :
    hChainOff.ignoreChain = true ∧
    CallbackManagerForChainRun.handleAgentAction rmC3 σC3 =
      Except.ok [Outcome.invoked hChainOff.hid] :=
  ⟨rfl, rfl⟩

/-- Claim C3 (amended): on a pipeline Run Manager, a handler with
`ignoreChain` set never receives `handleChainEnd`/`handleChainError`,
and a handler with `ignoreAgent` set never receives
`handleAgentAction`/`handleAgentEnd`; handlers without the respective
flag (and implementing the method) do receive the event — in particular
`ignoreChain` alone does not suppress the agent events. -/
theorem C3_suppression (σ : Heap) (rm : BaseRunManager)
    (h : BaseCallbackHandler)
    (hnd : ((getArr σ rm.handlersRef).map BaseCallbackHandler.hid).Nodup)
    (hmem : h ∈ getArr σ rm.handlersRef) :
    (h.ignoreChain = true →
      h.hid ∉ receivedIds (dispatched
        (CallbackManagerForChainRun.handleChainEnd rm σ)) ∧
      h.hid ∉ receivedIds (dispatched
        (CallbackManagerForChainRun.handleChainError rm σ))) ∧
    (h.ignoreAgent = true →
      h.hid ∉ receivedIds (dispatched
        (CallbackManagerForChainRun.handleAgentAction rm σ)) ∧
      h.hid ∉ receivedIds (dispatched
        (CallbackManagerForChainRun.handleAgentEnd rm σ))) ∧
    (h.ignoreChain = false → h.hasMethod EventName.chainEnd = true →
      h.hid ∈ receivedIds (dispatched
        (CallbackManagerForChainRun.handleChainEnd rm σ))) ∧
    (h.ignoreAgent = false → h.hasMethod EventName.agentAction = true →
      h.hid ∈ receivedIds (dispatched
        (CallbackManagerForChainRun.handleAgentAction rm σ))) := by
  simp only [CallbackManagerForChainRun.handleChainEnd,
    CallbackManagerForChainRun.handleChainError,
    CallbackManagerForChainRun.handleAgentAction,
    CallbackManagerForChainRun.handleAgentEnd, dispatched_fanOut]
  exact ⟨fun hc => ⟨hid_not_received _ _ _ h hnd hmem hc,
      hid_not_received _ _ _ h hnd hmem hc⟩,
    fun ha => ⟨hid_not_received _ _ _ h hnd hmem ha,
      hid_not_received _ _ _ h hnd hmem ha⟩,
    fun hc hm => hid_received _ _ _ h hmem hc hm,
    fun ha hm => hid_received _ _ _ h hmem ha hm⟩

theorem C3_suppression_witness :
    (((getArr σC3w rmC3w.handlersRef).map BaseCallbackHandler.hid).Nodup ∧
      hChainOff ∈ getArr σC3w rmC3w.handlersRef) ∧
    ((hChainOff.ignoreChain = true →
      hChainOff.hid ∉ receivedIds (dispatched
        (CallbackManagerForChainRun.handleChainEnd rmC3w σC3w)) ∧
      hChainOff.hid ∉ receivedIds (dispatched
        (CallbackManagerForChainRun.handleChainError rmC3w σC3w))) ∧
    (hChainOff.ignoreAgent = true →
      hChainOff.hid ∉ receivedIds (dispatched
        (CallbackManagerForChainRun.handleAgentAction rmC3w σC3w)) ∧
      hChainOff.hid ∉ receivedIds (dispatched
        (CallbackManagerForChainRun.handleAgentEnd rmC3w σC3w))) ∧
    (hChainOff.ignoreChain = false → hChainOff.hasMethod EventName.chainEnd = true →
      hChainOff.hid ∈ receivedIds (dispatched
        (CallbackManagerForChainRun.handleChainEnd rmC3w σC3w))) ∧
    (hChainOff.ignoreAgent = false → hChainOff.hasMethod EventName.agentAction = true →
      hChainOff.hid ∈ receivedIds (dispatched
        (CallbackManagerForChainRun.handleAgentAction rmC3w σC3w)))) :=
  ⟨⟨by decide, List.Mem.head _⟩,
    C3_suppression σC3w rmC3w hChainOff (by decide) (List.Mem.head _)⟩

/-- Claim C4: starting from a freshly constructed dispatcher, after any
finite sequence of `addHandler`/`removeHandler`/`setHandlers` calls the
`inheritableHandlers` collection is a subset of `handlers`. -/
theorem C4_inheritance_invariant (σ : Heap) (parent : Option String)
    (ops : List MOp) (h : BaseCallbackHandler)
    (hmem : h ∈ getArr (runOps (CallbackManager.new σ parent) ops).1
      (runOps (CallbackManager.new σ parent) ops).2.inheritableRef) :
    h ∈ getArr (runOps (CallbackManager.new σ parent) ops).1
      (runOps (CallbackManager.new σ parent) ops).2.handlersRef :=
  (wf_runOps (CallbackManager.new σ parent) ops (wf_new σ parent)).sub h hmem

theorem C4_inheritance_invariant_witness :
    hPlain ∈ getArr (runOps (CallbackManager.new Heap.empty none)
        [MOp.add hPlain true, MOp.remove hOther]).1
      (runOps (CallbackManager.new Heap.empty none)
        [MOp.add hPlain true, MOp.remove hOther]).2.inheritableRef ∧
    hPlain ∈ getArr (runOps (CallbackManager.new Heap.empty none)
        [MOp.add hPlain true, MOp.remove hOther]).1
      (runOps (CallbackManager.new Heap.empty none)
        [MOp.add hPlain true, MOp.remove hOther]).2.handlersRef :=
  ⟨List.Mem.head _,
    C4_inheritance_invariant Heap.empty none
      [MOp.add hPlain true, MOp.remove hOther] hPlain (List.Mem.head _)⟩

/-- Claim C2 (counterexample): `addHandler` on the dispatcher after a run
manager was created *is* visible to that run manager — the run manager
holds the same live array the dispatcher pushes onto, so the set of
notified handlers changes (`hOther` is notified after the mutation). -/
theorem C2_counterexample :
    BaseRunManager.handleText rmC2 σC2a =
      Except.ok [Outcome.invoked hPlain.hid] ∧
    BaseRunManager.handleText rmC2 σC2b =
      Except.ok [Outcome.invoked hPlain.hid, Outcome.invoked hOther.hid] :=
  ⟨rfl, rfl⟩

/-- Claim C2 (amended): mutations via `removeHandler` or `setHandlers`
rebind the dispatcher's fields to freshly allocated arrays, so they do
not change the handler array seen by an existing run manager, nor the
outcome of its subsequent dispatches; `addHandler`, by contrast, pushes
onto the very array the run manager aliases and is visible to it
(`C2_counterexample`). -/
theorem C2_snapshot (σ : Heap) (m : CallbackManager) (rm : BaseRunManager)
    (handler : BaseCallbackHandler) (hs : List BaseCallbackHandler)
    (inherit : Bool) (hlt : rm.handlersRef < σ.size) :
    getArr (CallbackManager.removeHandler σ m handler).1 rm.handlersRef =
      getArr σ rm.handlersRef ∧
    BaseRunManager.handleText rm (CallbackManager.removeHandler σ m handler).1 =
      BaseRunManager.handleText rm σ ∧
    getArr (CallbackManager.setHandlers σ m hs inherit).1 rm.handlersRef =
      getArr σ rm.handlersRef ∧
    BaseRunManager.handleText rm (CallbackManager.setHandlers σ m hs inherit).1 =
      BaseRunManager.handleText rm σ := by
  have h1 := removeHandler_frame σ m handler rm.handlersRef hlt
  obtain ⟨s1, s2, s3, s4, s5, s6, s7, s8⟩ := setHandlers_spec σ m hs inherit
  have h2 := s8 rm.handlersRef hlt
  exact ⟨h1, by simp only [BaseRunManager.handleText, h1],
    h2, by simp only [BaseRunManager.handleText, h2]⟩

theorem C2_snapshot_witness :
    rmC2.handlersRef < σC2a.size ∧
    (getArr (CallbackManager.removeHandler σC2a dC2 hOther).1 rmC2.handlersRef =
      getArr σC2a rmC2.handlersRef ∧
    BaseRunManager.handleText rmC2
        (CallbackManager.removeHandler σC2a dC2 hOther).1 =
      BaseRunManager.handleText rmC2 σC2a ∧
    getArr (CallbackManager.setHandlers σC2a dC2 [hOther] false).1
        rmC2.handlersRef =
      getArr σC2a rmC2.handlersRef ∧
    BaseRunManager.handleText rmC2
        (CallbackManager.setHandlers σC2a dC2 [hOther] false).1 =
      BaseRunManager.handleText rmC2 σC2a) :=
  ⟨by decide,
    C2_snapshot σC2a dC2 rmC2 hOther [hOther] false (by decide)⟩

/-! ## Claim C5 -/
/-- Claim C5: `getChild()` on a pipeline or tool run manager returns a
dispatcher whose parent run id is the run's id and whose `handlers` and
`inheritableHandlers` arrays both hold exactly the run's
`inheritableHandlers` snapshot. -/
theorem C5_getChild (σ : Heap) (rm : BaseRunManager)
    (hlt : rm.inheritableRef < σ.size) :
    ((CallbackManagerForChainRun.getChild σ rm).2.parentRunId = some rm.runId ∧
     getArr (CallbackManagerForChainRun.getChild σ rm).1
       (CallbackManagerForChainRun.getChild σ rm).2.handlersRef =
       getArr σ rm.inheritableRef ∧
     getArr (CallbackManagerForChainRun.getChild σ rm).1
       (CallbackManagerForChainRun.getChild σ rm).2.inheritableRef =
       getArr σ rm.inheritableRef) ∧
    ((CallbackManagerForToolRun.getChild σ rm).2.parentRunId = some rm.runId ∧
     getArr (CallbackManagerForToolRun.getChild σ rm).1
       (CallbackManagerForToolRun.getChild σ rm).2.handlersRef =
       getArr σ rm.inheritableRef ∧
     getArr (CallbackManagerForToolRun.getChild σ rm).1
       (CallbackManagerForToolRun.getChild σ rm).2.inheritableRef =
       getArr σ rm.inheritableRef) := by
  obtain ⟨n1, n2, n3, n4, n5, n6⟩ := new_spec σ (some rm.runId)
  have harr : getArr (CallbackManager.new σ (some rm.runId)).1 rm.inheritableRef =
      getArr σ rm.inheritableRef := n6 _ hlt
  obtain ⟨s1, s2, s3, s4, s5, s6, s7, s8⟩ := setHandlers_spec
    (CallbackManager.new σ (some rm.runId)).1
    (CallbackManager.new σ (some rm.runId)).2
    (getArr σ rm.inheritableRef) true
  have hc : (CallbackManagerForChainRun.getChild σ rm).2.parentRunId =
        some rm.runId ∧
      getArr (CallbackManagerForChainRun.getChild σ rm).1
        (CallbackManagerForChainRun.getChild σ rm).2.handlersRef =
        getArr σ rm.inheritableRef ∧
      getArr (CallbackManagerForChainRun.getChild σ rm).1
        (CallbackManagerForChainRun.getChild σ rm).2.inheritableRef =
        getArr σ rm.inheritableRef := by
    simp only [CallbackManagerForChainRun.getChild, harr]
    refine ⟨?_, ?_, ?_⟩
    · rw [s3, n1]
    · rw [s1, s4]
    · rw [s2, s5]
      simp
  exact ⟨hc, hc⟩

theorem C5_getChild_witness :
    rmC5.inheritableRef < σC5.size ∧
    (((CallbackManagerForChainRun.getChild σC5 rmC5).2.parentRunId =
        some rmC5.runId ∧
     getArr (CallbackManagerForChainRun.getChild σC5 rmC5).1
       (CallbackManagerForChainRun.getChild σC5 rmC5).2.handlersRef =
       getArr σC5 rmC5.inheritableRef ∧
     getArr (CallbackManagerForChainRun.getChild σC5 rmC5).1
       (CallbackManagerForChainRun.getChild σC5 rmC5).2.inheritableRef =
       getArr σC5 rmC5.inheritableRef) ∧
    ((CallbackManagerForToolRun.getChild σC5 rmC5).2.parentRunId =
        some rmC5.runId ∧
     getArr (CallbackManagerForToolRun.getChild σC5 rmC5).1
       (CallbackManagerForToolRun.getChild σC5 rmC5).2.handlersRef =
       getArr σC5 rmC5.inheritableRef ∧
     getArr (CallbackManagerForToolRun.getChild σC5 rmC5).1
       (CallbackManagerForToolRun.getChild σC5 rmC5).2.inheritableRef =
       getArr σC5 rmC5.inheritableRef)) :=
  ⟨by decide, C5_getChild σC5 rmC5 (by decide)⟩

/-! ## Claim C6 -/
/-- Claim C6: `configure` returns `undefined` exactly when no
inheritable source is given, no local handler list is given, the
verbose option is not requested, and no ambient trace-enabling signal
(`LANGCHAIN_TRACING`) is present. -/
theorem C6_configure_none_iff (σ : Heap) (inh : Option HandlerSource)
    (localHandlers : Option (List BaseCallbackHandler))
    (verbose tracingEnv : Bool) :
    (CallbackManager.configure σ inh localHandlers verbose tracingEnv).2 =
        none ↔
      (inh = none ∧ localHandlers = none ∧ verbose = false ∧
        tracingEnv = false) := by
  rcases inh with _ | (m | hs) <;> rcases localHandlers with _ | ls <;>
    cases verbose <;> cases tracingEnv <;>
      simp [CallbackManager.configure]

theorem countTracers_copiesFrom (n : Nat) (hs : List BaseCallbackHandler) :
    countTracers (copiesFrom n hs) = countTracers hs := by
  induction hs generalizing n with
  | nil => rfl
  | cons h hs ih =>
    simp [copiesFrom, countTracers, List.countP_cons,
      BaseCallbackHandler.copy] at *
    rw [ih]

theorem any_tracer_copiesFrom (n : Nat) (hs : List BaseCallbackHandler) :
    (copiesFrom n hs).any (fun h => h.name == "langchain_tracer") =
      hs.any (fun h => h.name == "langchain_tracer") := by
  induction hs generalizing n with
  | nil => rfl
  | cons h hs ih => simp [copiesFrom, BaseCallbackHandler.copy, ih]

theorem countTracers_console (hs : List BaseCallbackHandler) (i : Nat) :
    countTracers (hs ++ [newConsoleCallbackHandler i]) = countTracers hs := by
  simp [countTracers, List.countP_append, newConsoleCallbackHandler]

/-- When a tracer-named handler is already present, the tracer branch of
`configure` leaves the handlers array unchanged. -/
theorem tracer_branch_noop (σa : Heap) (pc2 : CallbackManager)
    (hX : (getArr σa pc2.handlersRef).any
      (fun h => h.name == "langchain_tracer") = true) :
    getArr (if (true && !((getArr σa pc2.handlersRef).any
          (fun h => h.name == "langchain_tracer"))) = true
        then CallbackManager.addHandler (freshId σa).1 pc2
          (getTracingCallbackHandler (freshId σa).2) true
        else σa) pc2.handlersRef = getArr σa pc2.handlersRef := by
  rw [hX]
  simp

/-- Claim C7: if the dispatcher already holds a handler with the stable
tracer name, a `configure` call under an active tracing signal adds no
additional tracer handler: the tracer count of the resulting
dispatcher's handlers equals that of the original. -/
theorem C7_configure_dedup (σ : Heap) (m : CallbackManager) (verbose : Bool)
    (hlt : m.handlersRef < σ.size)
    (htr : (getArr σ m.handlersRef).any
      (fun h => h.name == "langchain_tracer") = true) :
    ∃ c, (CallbackManager.configure σ (some (HandlerSource.manager m))
        none verbose true).2 = some c ∧
      countTracers (getArr (CallbackManager.configure σ
          (some (HandlerSource.manager m)) none verbose true).1
        c.handlersRef) =
      countTracers (getArr σ m.handlersRef) := by
  obtain ⟨c1, c2, c3, c4, c5, c6, c7⟩ := copy_spec σ m [] false hlt
  have hne23 : (CallbackManager.copy σ m [] false).2.handlersRef ≠
      (CallbackManager.copy σ m [] false).2.inheritableRef := by
    rw [c1, c2]; omega
  have hCS : getArr (CallbackManager.copy σ m [] false).1
      (CallbackManager.copy σ m [] false).2.handlersRef =
      copiesFrom σ.nextId (getArr σ m.handlersRef) := by
    rw [c1, c4]
    simp [copiesFrom]
  have hany : (copiesFrom σ.nextId (getArr σ m.handlersRef)).any
      (fun h => h.name == "langchain_tracer") = true := by
    rw [any_tracer_copiesFrom]
    exact htr
  refine ⟨(CallbackManager.copy σ m [] false).2, ?_, ?_⟩ <;>
    simp only [CallbackManager.configure, Option.isSome_some,
      Option.isSome_none, Bool.true_or, Bool.or_false, Option.getD_none,
      Bool.or_true, if_true]
  split
  · next hv =>
    rw [tracer_branch_noop _ _ (by
      rw [addHandler_handlers _ _ _ _ hne23, getArr_freshId, hCS,
        List.any_append, hany, Bool.true_or])]
    rw [addHandler_handlers _ _ _ _ hne23, getArr_freshId, hCS,
      countTracers_console, countTracers_copiesFrom]
  · next hv =>
    rw [tracer_branch_noop _ _ (by rw [getArr_freshId, hCS]; exact hany)]
    rw [getArr_freshId, hCS, countTracers_copiesFrom]

theorem C7_configure_dedup_witness :
    (mC7.handlersRef < σC7.size ∧
      (getArr σC7 mC7.handlersRef).any
        (fun h => h.name == "langchain_tracer") = true) ∧
    ∃ c, (CallbackManager.configure σC7 (some (HandlerSource.manager mC7))
        none false true).2 = some c ∧
      countTracers (getArr (CallbackManager.configure σC7
          (some (HandlerSource.manager mC7)) none false true).1
        c.handlersRef) =
      countTracers (getArr σC7 mC7.handlersRef) :=
  ⟨⟨by decide, by decide⟩,
    C7_configure_dedup σC7 mC7 false (by decide) (by decide)⟩

/-! ## Claim C9 -/
/-- Claim C9: in `copy`, every duplicate of an original handler lands in
the copy's `inheritableHandlers` as well as its `handlers`, regardless
of whether the original was inheritable — only the additional handlers
respect the `inherit` flag.  Concretely: the copy's handlers are (by
name) the original handlers followed by the additional ones, and its
`inheritableHandlers` equal the whole `handlers` array when `inherit`,
and its original-derived prefix otherwise. -/
theorem C9_copy_inheritable (σ : Heap) (m : CallbackManager)
    (additional : List BaseCallbackHandler) (inherit : Bool)
    (hlt : m.handlersRef < σ.size) :
    ((getArr (CallbackManager.copy σ m additional inherit).1
        (CallbackManager.copy σ m additional inherit).2.handlersRef).map
      BaseCallbackHandler.name =
      (getArr σ m.handlersRef).map BaseCallbackHandler.name ++
        additional.map BaseCallbackHandler.name) ∧
    getArr (CallbackManager.copy σ m additional inherit).1
        (CallbackManager.copy σ m additional inherit).2.inheritableRef =
      (if inherit then
        getArr (CallbackManager.copy σ m additional inherit).1
          (CallbackManager.copy σ m additional inherit).2.handlersRef
       else
        (getArr (CallbackManager.copy σ m additional inherit).1
          (CallbackManager.copy σ m additional inherit).2.handlersRef).take
          (getArr σ m.handlersRef).length) := by
  obtain ⟨c1, c2, c3, c4, c5, c6, c7⟩ := copy_spec σ m additional inherit hlt
  constructor
  · rw [c1, c4, List.map_append, copiesFrom_name, copiesFrom_name]
  · rw [c2, c5, c1, c4]
    by_cases hi : inherit
    · simp [hi]
    · simp only [hi, if_false, Bool.false_eq_true, List.append_nil]
      rw [← copiesFrom_length σ.nextId (getArr σ m.handlersRef),
        List.take_left]

theorem C9_copy_inheritable_witness :
    mC9.handlersRef < σC9.size ∧
    (((getArr (CallbackManager.copy σC9 mC9 [hOther] false).1
        (CallbackManager.copy σC9 mC9 [hOther] false).2.handlersRef).map
      BaseCallbackHandler.name =
      (getArr σC9 mC9.handlersRef).map BaseCallbackHandler.name ++
        [hOther].map BaseCallbackHandler.name) ∧
    getArr (CallbackManager.copy σC9 mC9 [hOther] false).1
        (CallbackManager.copy σC9 mC9 [hOther] false).2.inheritableRef =
      (if false then
        getArr (CallbackManager.copy σC9 mC9 [hOther] false).1
          (CallbackManager.copy σC9 mC9 [hOther] false).2.handlersRef
       else
        (getArr (CallbackManager.copy σC9 mC9 [hOther] false).1
          (CallbackManager.copy σC9 mC9 [hOther] false).2.handlersRef).take
          (getArr σC9 mC9.handlersRef).length)) :=
  ⟨by decide, C9_copy_inheritable σC9 mC9 [hOther] false (by decide)⟩

/-! ## Claim C10 -/
/-- Every array allocated before a `configure` call that is handed an
existing dispatcher is untouched by the call: all additions go to the
freshly created copy. -/
theorem configure_manager_frame (σ : Heap) (m : CallbackManager)
    (localHandlers : Option (List BaseCallbackHandler))
    (verbose tracingEnv : Bool) (hlt : m.handlersRef < σ.size)
    (r : Nat) (hr : r < σ.size) :
    getArr (CallbackManager.configure σ (some (HandlerSource.manager m))
      localHandlers verbose tracingEnv).1 r = getArr σ r := by
  obtain ⟨c1, c2, c3, c4, c5, c6, c7⟩ :=
    copy_spec σ m (localHandlers.getD []) false hlt
  have hr1 : r ≠ (CallbackManager.copy σ m
      (localHandlers.getD []) false).2.handlersRef := by rw [c1]; omega
  have hr2 : r ≠ (CallbackManager.copy σ m
      (localHandlers.getD []) false).2.inheritableRef := by rw [c2]; omega
  have hadd : ∀ (σ' : Heap) (h : BaseCallbackHandler) (i : Bool),
      getArr (CallbackManager.addHandler σ'
        (CallbackManager.copy σ m (localHandlers.getD []) false).2 h i) r =
        getArr σ' r :=
    fun σ' h i => addHandler_other σ' _ h i r hr1 hr2
  simp only [CallbackManager.configure, Option.isSome_some, Bool.true_or,
    if_true]
  split
  · dsimp only
    split <;> split <;> simp only [hadd, getArr_freshId] <;> exact c7 r hr
  · dsimp only
    exact c7 r hr

/-- Claim C10: when `configure` is given an existing dispatcher, that
dispatcher's `handlers` and `inheritableHandlers` arrays are unchanged
by the call. -/
theorem C10_configure_no_mutation (σ : Heap) (m : CallbackManager)
    (localHandlers : Option (List BaseCallbackHandler))
    (verbose tracingEnv : Bool)
    (hlt : m.handlersRef < σ.size) (ilt : m.inheritableRef < σ.size) :
    getArr (CallbackManager.configure σ (some (HandlerSource.manager m))
        localHandlers verbose tracingEnv).1 m.handlersRef =
      getArr σ m.handlersRef ∧
    getArr (CallbackManager.configure σ (some (HandlerSource.manager m))
        localHandlers verbose tracingEnv).1 m.inheritableRef =
      getArr σ m.inheritableRef :=
  ⟨configure_manager_frame σ m localHandlers verbose tracingEnv hlt
      m.handlersRef hlt,
    configure_manager_frame σ m localHandlers verbose tracingEnv hlt
      m.inheritableRef ilt⟩

theorem C10_configure_no_mutation_witness :
    (mC10.handlersRef < σC10.size ∧ mC10.inheritableRef < σC10.size) ∧
    (getArr (CallbackManager.configure σC10
        (some (HandlerSource.manager mC10)) (some [hOther]) true true).1
        mC10.handlersRef =
      getArr σC10 mC10.handlersRef ∧
    getArr (CallbackManager.configure σC10
        (some (HandlerSource.manager mC10)) (some [hOther]) true true).1
        mC10.inheritableRef =
      getArr σC10 mC10.inheritableRef) :=
  ⟨⟨by decide, by decide⟩,
    C10_configure_no_mutation σC10 mC10 (some [hOther]) true true
      (by decide) (by decide)⟩
